import Mathlib

/-!
Verification of the `flow` note-graph core (crates/core/src/graph.rs and the
CLI init guard in crates/cli/src/commands/init.rs) against its specification.

The filesystem is modelled explicitly: a `World` holds the files (an
association list from paths to contents), the set of existing directories, an
oracle of paths whose writes fail (modelling I/O errors), and a trace of the
filesystem events performed, used to state frame properties.

The replicated text store (the external `loro` crate, an opaque CRDT library
not part of this repository) is modelled from the interface the spec gives in
section 4.1: each text container is represented by its current rendering, the
whole document by an association list from container ids to renderings, a
snapshot by the store value itself, `update` by replacing the rendering with
the supplied full text (its documented render-level effect), and `push_str`
by appending to the rendering.
-/

deriving instance DecidableEq for Except

namespace Flow

/-- Error kinds of the core, following the taxonomy of spec section 7. -/
inductive Err where
  | alreadyExists
  | notFound
  | corruptMetadata
  | corruptSnapshot
  | invalidEncoding
  | ioError
deriving DecidableEq, Repr

/-- A filesystem path, as its list of components. -/
abbrev Path := List String

/-- Association-list update: set key `k` to value `v`, first occurrence wins. -/
def setAssoc {α β : Type} [DecidableEq α] : List (α × β) → α → β → List (α × β)
  | [], k, v => [(k, v)]
  | (k1, v1) :: rest, k, v =>
    if k1 = k then (k1, v) :: rest else (k1, v1) :: setAssoc rest k v

/-- Association-list lookup, first occurrence wins. -/
def lookupAssoc {α β : Type} [DecidableEq α] : List (α × β) → α → Option β
  | [], _ => none
  | (k1, v1) :: rest, k => if k1 = k then some v1 else lookupAssoc rest k

/-- The replicated text store (the loro document): each container id is mapped
to the current rendering of its text value. -/
abbrev Store := List (String × String)

/-- Rendering of the text container at `id`; a container not yet used renders
as the empty string (`get_text` creates an empty value on first use). -/
def Store.get (st : Store) (id : String) : String :=
  match lookupAssoc st id with
  | some s => s
  | none => ""

/-- Set the rendering of the container at `id`. -/
def Store.set (st : Store) (id : String) (s : String) : Store :=
  setAssoc st id s

/-- Model of `LoroText::update(new_text)`: reconcile the container with an
externally provided full string; its render-level effect is that the
rendering becomes exactly `new_text` (spec section 4.1). -/
def Store.update (st : Store) (id : String) (s : String) : Store :=
  Store.set st id s

/-- Model of `LoroText::push_str(text)`: append to the current rendering. -/
def Store.push (st : Store) (id : String) (s : String) : Store :=
  Store.set st id (Store.get st id ++ s)

/-- Model of `LoroText::is_empty()`. -/
def Store.isEmptyAt (st : Store) (id : String) : Bool :=
  Store.get st id == ""

/-- Graph metadata, as in `struct Metadata` of graph.rs. -/
structure Metadata where
  name : String
  version : String
deriving DecidableEq, Repr

/-- A registered space in the configuration (config.rs `SpaceConfig`). -/
structure SpaceConfig where
  path : Path
deriving DecidableEq, Repr

/-- The configuration (config.rs `Config`): registry of spaces plus the
active one. -/
structure Config where
  spaces : List (String × SpaceConfig)
  activeSpace : Option String
deriving DecidableEq, Repr

/-- Content of a file in the modelled filesystem. `text` is UTF-8 text;
`snap` is an opaque binary snapshot of the replicated store, represented by
the store state it encodes; `conf` is the TOML encoding of a configuration,
represented by the configuration value. A binary snapshot read as text fails
UTF-8 decoding, which the model reflects by constructor mismatch. -/
inductive Content where
  | text (s : String)
  | snap (st : Store)
  | conf (c : Config)
deriving DecidableEq, Repr

/-- Filesystem events, used to state frame properties: file reads, attempted
file writes, directory creations and existence checks. -/
inductive Ev where
  | readF (p : Path)
  | writeF (p : Path)
  | mkdirD (p : Path)
  | statF (p : Path)
deriving DecidableEq, Repr

/-- The filesystem world: files, directories, an oracle of paths whose writes
fail with an I/O error, and the trace of performed filesystem events. -/
structure World where
  files : List (Path × Content)
  dirs : List Path
  failWrites : List Path
  trace : List Ev
deriving DecidableEq, Repr

/-- Model of `fs::write`: records the attempted write; fails with an I/O
error exactly on the paths of the failure oracle, otherwise stores the
content. -/
def fsWrite (p : Path) (c : Content) (w : World) : Except Err Unit × World :=
  let w1 : World := { w with trace := w.trace ++ [Ev.writeF p] }
  if p ∈ w.failWrites then (Except.error Err.ioError, w1)
  else (Except.ok (), { w1 with files := setAssoc w1.files p c })

/-- Model of `fs::read_to_string`: fails if the file is absent, or if its
content is not valid UTF-8 text. -/
def fsReadToString (p : Path) (w : World) : Except Err String × World :=
  let w1 : World := { w with trace := w.trace ++ [Ev.readF p] }
  match lookupAssoc w.files p with
  | none => (Except.error Err.notFound, w1)
  | some (Content.text s) => (Except.ok s, w1)
  | some _ => (Except.error Err.invalidEncoding, w1)

/-- Model of `fs::read` (raw bytes): fails only if the file is absent. -/
def fsReadRaw (p : Path) (w : World) : Except Err Content × World :=
  let w1 : World := { w with trace := w.trace ++ [Ev.readF p] }
  match lookupAssoc w.files p with
  | none => (Except.error Err.ioError, w1)
  | some c => (Except.ok c, w1)

/-- Model of `fs::create_dir_all`: records the event and adds the directory. -/
def mkdirAll (p : Path) (w : World) : World :=
  { w with dirs := if p ∈ w.dirs then w.dirs else w.dirs ++ [p],
           trace := w.trace ++ [Ev.mkdirD p] }

/-- Whether a path is present in the world, as a file or as a directory. -/
def pathPresent (p : Path) (w : World) : Bool :=
  (lookupAssoc w.files p).isSome || decide (p ∈ w.dirs)

/-- Model of `Path::exists()`: records the existence check in the trace. -/
def fsExistsCheck (p : Path) (w : World) : Bool × World :=
  (pathPresent p w, { w with trace := w.trace ++ [Ev.statF p] })

/-- The path constants of graph.rs. -/
def FLOW_DIR : String := ".flow"

/-- Metadata file name constant of graph.rs. -/
def METADATA_FILE : String := "graph.toml"

/-- Snapshot file name constant of graph.rs. -/
def DOCUMENT_FILE : String := "graph.loro"

/-- Journal directory name constant of graph.rs. -/
def JOURNAL_DIR : String := "journal"

/-- `path.join(FLOW_DIR)`. -/
def flowDir (root : Path) : Path := root ++ [FLOW_DIR]

/-- `flow_dir.join(METADATA_FILE)`. -/
def metadataPath (root : Path) : Path := root ++ [FLOW_DIR, METADATA_FILE]

/-- `flow_dir.join(DOCUMENT_FILE)`. -/
def docPath (root : Path) : Path := root ++ [FLOW_DIR, DOCUMENT_FILE]

/-- `path.join(JOURNAL_DIR)`. -/
def journalDir (root : Path) : Path := root ++ [JOURNAL_DIR]

/-- Split a character list on a separator character; `acc` holds the current
component reversed. -/
def splitChars (sep : Char) : List Char → List Char → List (List Char)
  | [], acc => [acc.reverse]
  | c :: rest, acc =>
    if c = sep then acc.reverse :: splitChars sep rest []
    else splitChars sep rest (c :: acc)

/-- Splitting a string on a single-character separator (the behavior of
`str::split` for a one-character pattern). -/
def splitOnChar (sep : Char) (s : String) : List String :=
  (splitChars sep s.data []).map (fun cs => String.mk cs)

/-- `self.path.join(id)` for a document id such as "journal/2024-01-01.md":
joining a relative path string splits it on the separator. -/
def joinId (root : Path) (id : String) : Path := root ++ splitOnChar '/' id

/-- Model of `toml::to_string_pretty` for the two-field `Metadata` struct. -/
def Metadata.toToml (m : Metadata) : String :=
  "name = \"" ++ m.name ++ "\"\n" ++ "version = \"" ++ m.version ++ "\"\n"

/-- Parse one `key = "value"` TOML line, returning the value. -/
def parseTomlLine (key : String) (l : String) : Option String :=
  let pre := (key ++ " = \"").data
  let cs := l.data
  if pre.isPrefixOf cs then
    match (cs.drop pre.length).getLast? with
    | some c =>
      if c = '"' then some (String.mk (cs.drop pre.length).dropLast) else none
    | none => none
  else none

/-- Model of `toml::from_str::<Metadata>`: accepts the two-line `name`,
`version` document shape produced by `Metadata.toToml`, rejects anything
else as corrupt metadata. -/
def tomlToMetadata (s : String) : Except Err Metadata :=
  match (splitOnChar '\n' s).filter (fun l => l != "") with
  | [l1, l2] =>
    match parseTomlLine "name" l1, parseTomlLine "version" l2 with
    | some n, some v => Except.ok { name := n, version := v }
    | _, _ => Except.error Err.corruptMetadata
  | _ => Except.error Err.corruptMetadata

/-- The crate version baked in by `env!("CARGO_PKG_VERSION")`; its exact
value is immaterial to every property below. -/
def CARGO_PKG_VERSION : String := "0.1.0"

/-- Model of `doc.export(ExportMode::Snapshot)`: the opaque snapshot bytes
are represented by the store state they encode. -/
def Store.exportSnapshot (st : Store) : Content := Content.snap st

/-- Model of `LoroDoc::new()` followed by `doc.import(bytes)`, as used in
`Graph::load`: importing a snapshot into a fresh empty document yields the
snapshotted state; anything that is not a snapshot fails to import. -/
def Store.importNew (c : Content) : Except Err Store :=
  match c with
  | Content.snap st => Except.ok st
  | _ => Except.error Err.corruptSnapshot

/-- The graph session, as in `struct Graph` of graph.rs. The `HashSet<String>`
of dirty ids is modelled as a duplicate-free list. -/
structure Graph where
  path : Path
  metadata : Metadata
  document : Store
  dirty : List String
deriving DecidableEq, Repr

/-- Model of `HashSet::insert`. -/
def insertId (l : List String) (id : String) : List String :=
  if id ∈ l then l else l ++ [id]

/-- `path.file_name()` with the `"flow-graph"` fallback of `Graph::init`. -/
def basename (p : Path) : String :=
  match p.getLast? with
  | some s => s
  | none => "flow-graph"

/-- Translation of `Graph::init` (graph.rs lines 53-87): create the marker
and journal directories, write the metadata file, create an empty document
and write its snapshot. There is no already-exists check here; that guard
lives in the CLI (`InitCommand::run`). -/
def Graph.init (path : Path) (name : Option String) (w : World) :
    Except Err Graph × World :=
  let w1 := mkdirAll (flowDir path) w
  let w2 := mkdirAll (journalDir path) w1
  let graphName : String :=
    match name with
    | some s => s
    | none => basename path
  let metadata : Metadata := { name := graphName, version := CARGO_PKG_VERSION }
  let r1 := fsWrite (metadataPath path) (Content.text metadata.toToml) w2
  match r1.1 with
  | Except.error e => (Except.error e, r1.2)
  | Except.ok _ =>
    let r2 := fsWrite (docPath path) (Store.exportSnapshot []) r1.2
    match r2.1 with
    | Except.error e => (Except.error e, r2.2)
    | Except.ok _ =>
      (Except.ok { path := path, metadata := metadata, document := [], dirty := [] },
       r2.2)

/-- Translation of `Graph::load` (graph.rs lines 102-124): read and parse the
metadata file, then import the snapshot if the snapshot file exists,
otherwise start from an empty document; the dirty set starts empty. -/
def Graph.load (path : Path) (w : World) : Except Err Graph × World :=
  let r1 := fsReadToString (metadataPath path) w
  match r1.1 with
  | Except.error e => (Except.error e, r1.2)
  | Except.ok s =>
    match tomlToMetadata s with
    | Except.error e => (Except.error e, r1.2)
    | Except.ok metadata =>
      let ew := fsExistsCheck (docPath path) r1.2
      if ew.1 then
        let r2 := fsReadRaw (docPath path) ew.2
        match r2.1 with
        | Except.error e => (Except.error e, r2.2)
        | Except.ok c =>
          match Store.importNew c with
          | Except.error e => (Except.error e, r2.2)
          | Except.ok st =>
            (Except.ok { path := path, metadata := metadata, document := st,
                         dirty := [] }, r2.2)
      else
        (Except.ok { path := path, metadata := metadata, document := [],
                     dirty := [] }, ew.2)

/-- Translation of `Graph::exists` (graph.rs lines 135-137): checks only the
presence of the `.flow` marker. -/
def Graph.existsAt (path : Path) (w : World) : Bool :=
  pathPresent (path ++ [".flow"]) w

/-- The per-id write loop of `Graph::save` (graph.rs lines 197-201): for each
dirty id, render the text container and write it to `root/id`. -/
def writeDirty (root : Path) (doc : Store) :
    List String → World → Except Err Unit × World
  | [], w => (Except.ok (), w)
  | id :: rest, w =>
    let r := fsWrite (joinId root id) (Content.text (Store.get doc id)) w
    match r.1 with
    | Except.error e => (Except.error e, r.2)
    | Except.ok _ => writeDirty root doc rest r.2

/-- Translation of `Graph::save` (graph.rs lines 183-205): write the metadata
file, export and write the snapshot, write every dirty id's rendered file,
and clear the dirty set only after all writes succeeded. A failing write
returns early, leaving the session (in particular its dirty set) as it was. -/
def Graph.save (g : Graph) (w : World) : Except Err Unit × Graph × World :=
  let r1 := fsWrite (metadataPath g.path) (Content.text g.metadata.toToml) w
  match r1.1 with
  | Except.error e => (Except.error e, g, r1.2)
  | Except.ok _ =>
    let r2 := fsWrite (docPath g.path) (Store.exportSnapshot g.document) r1.2
    match r2.1 with
    | Except.error e => (Except.error e, g, r2.2)
    | Except.ok _ =>
      let r3 := writeDirty g.path g.document g.dirty r2.2
      match r3.1 with
      | Except.error e => (Except.error e, g, r3.2)
      | Except.ok _ => (Except.ok (), { g with dirty := [] }, r3.2)

/-- Translation of `Graph::add` (graph.rs lines 149-172): ensure the journal
directory, derive today's document id and file path, fold the on-disk file
(if any) into the text container via `update`, append the new line — always
prefixed with a newline in graph.rs — mark the id dirty and save. The local
date is passed in as `today`. -/
def Graph.add (today : String) (content : String) (g : Graph) (w : World) :
    Except Err Unit × Graph × World :=
  let w1 := mkdirAll (journalDir g.path) w
  let daily : Path := journalDir g.path ++ [today ++ ".md"]
  let id : String := JOURNAL_DIR ++ "/" ++ today ++ ".md"
  let ew := fsExistsCheck daily w1
  let step : Except Err Store × World :=
    if ew.1 then
      let r := fsReadToString daily ew.2
      match r.1 with
      | Except.error e => (Except.error e, r.2)
      | Except.ok s => (Except.ok (Store.update g.document id s), r.2)
    else (Except.ok g.document, ew.2)
  match step.1 with
  | Except.error e => (Except.error e, g, step.2)
  | Except.ok doc =>
    let doc2 := Store.push doc id ("\n- " ++ content)
    let g2 : Graph := { g with document := doc2, dirty := insertId g.dirty id }
    Graph.save g2 step.2

/-- Path of the configuration file (`~/.config/flow/flow.toml`), outside any
graph root. -/
def configPath : Path := ["~", ".config", "flow", "flow.toml"]

/-- The default configuration. -/
def Config.defaultConfig : Config := { spaces := [], activeSpace := none }

/-- Translation of `Config::load` (config.rs lines 54-59): read the config
file; if it does not exist, create it with default values (confy behavior);
fail if it does not parse. -/
def Config.load (w : World) : Except Err Config × World :=
  let w1 : World := { w with trace := w.trace ++ [Ev.readF configPath] }
  match lookupAssoc w.files configPath with
  | some (Content.conf c) => (Except.ok c, w1)
  | some _ => (Except.error Err.ioError, w1)
  | none =>
    let r := fsWrite configPath (Content.conf Config.defaultConfig) w1
    match r.1 with
    | Except.error e => (Except.error e, r.2)
    | Except.ok _ => (Except.ok Config.defaultConfig, r.2)

/-- Translation of `Config::register_space` (config.rs lines 82-106): insert
the graph under its name (the path is already canonical in this model), make
it active if it is the only space, and persist the configuration. -/
def Config.registerSpace (c : Config) (g : Graph) (w : World) :
    Except Err Config × World :=
  let spaces := setAssoc c.spaces g.metadata.name { path := g.path }
  let c2 : Config :=
    { spaces := spaces,
      activeSpace := if spaces.length = 1 then some g.metadata.name
                     else c.activeSpace }
  let r := fsWrite configPath (Content.conf c2) w
  match r.1 with
  | Except.error e => (Except.error e, r.2)
  | Except.ok _ => (Except.ok c2, r.2)

/-- Output of the init command (init.rs `InitOutput`). -/
structure InitOutput where
  name : String
  path : String
deriving DecidableEq, Repr

/-- Display form of a path (init.rs `path_to_display_string`). -/
def pathToDisplayString (p : Path) : String := String.intercalate "/" p

/-- Translation of `InitCommand::run` (init.rs lines 85-125): load the
configuration, refuse with an already-exists failure if a `.flow` marker is
present at the target path, otherwise initialize the graph and register it. -/
def initCommandRun (path : Path) (name : Option String) (w : World) :
    Except Err InitOutput × World :=
  let r1 := Config.load w
  match r1.1 with
  | Except.error e => (Except.error e, r1.2)
  | Except.ok config =>
    if Graph.existsAt path r1.2 then (Except.error Err.alreadyExists, r1.2)
    else
      let r2 := Graph.init path name r1.2
      match r2.1 with
      | Except.error e => (Except.error e, r2.2)
      | Except.ok g =>
        let r3 := Config.registerSpace config g r2.2
        match r3.1 with
        | Except.error e => (Except.error e, r3.2)
        | Except.ok _ =>
          (Except.ok { name := g.metadata.name, path := pathToDisplayString path },
           r3.2)

/-! ### Concrete example states used by witnesses and counterexamples -/

def exRoot : Path := ["r"]

def exMeta : Metadata := { name := "g", version := "0.1.0" }

def exGraph : Graph :=
  { path := exRoot, metadata := exMeta, document := [], dirty := [] }

def exWorld0 : World := { files := [], dirs := [], failWrites := [], trace := [] }

def exWorldInit : World :=
  { files := [(metadataPath exRoot, Content.text exMeta.toToml),
              (docPath exRoot, Content.snap [])],
    dirs := [flowDir exRoot, journalDir exRoot], failWrites := [], trace := [] }

def exWorldMarked : World :=
  { files := [(configPath, Content.conf Config.defaultConfig),
              (metadataPath exRoot, Content.text exMeta.toToml),
              (docPath exRoot, Content.snap [])],
    dirs := [flowDir exRoot], failWrites := [], trace := [] }

def exWorldFail : World :=
  { files := [], dirs := [], failWrites := [metadataPath exRoot], trace := [] }

def exWorldMetaOnly : World :=
  { files := [(metadataPath exRoot, Content.text exMeta.toToml)],
    dirs := [], failWrites := [], trace := [] }

def exWorldManual : World :=
  { files := [(journalDir exRoot ++ ["2025-01-02.md"], Content.text "manual")],
    dirs := [], failWrites := [], trace := [] }

def exGraphDirty : Graph :=
  { path := exRoot, metadata := exMeta,
    document := [("journal/2025-01-02.md", "hello")],
    dirty := ["journal/2025-01-02.md"] }

/-! ### Basic lemmas about the association-list and filesystem primitives -/

theorem lookup_setAssoc_self {α β : Type} [DecidableEq α] (l : List (α × β)) (k : α) (v : β) :
    lookupAssoc (setAssoc l k v) k = some v := by
  induction l with
  | nil => simp [setAssoc, lookupAssoc]
  | cons hd tl ih =>
    obtain ⟨k1, v1⟩ := hd
    by_cases h : k1 = k <;> simp [setAssoc, lookupAssoc, h, ih]

theorem lookup_setAssoc_ne {α β : Type} [DecidableEq α] (l : List (α × β)) (k k' : α) (v : β)
    (h : k' ≠ k) : lookupAssoc (setAssoc l k v) k' = lookupAssoc l k' := by
  induction l with
  | nil => simp [setAssoc, lookupAssoc, Ne.symm h]
  | cons hd tl ih =>
    obtain ⟨k1, v1⟩ := hd
    by_cases h1 : k1 = k <;> by_cases h2 : k1 = k' <;>
      simp_all [setAssoc, lookupAssoc]

theorem append_singleton_ne {α : Type} (l : List α) (x : α) : l ++ [x] ≠ l := by
  intro h
  have := congrArg List.length h
  simp at this

theorem append_pair_ne_left {α : Type} (l : List α) (a b c d : α) (h : a ≠ c) :
    l ++ [a, b] ≠ l ++ [c, d] := by
  intro he
  exact h (by injection List.append_cancel_left he)

theorem append_pair_ne_right {α : Type} (l : List α) (a b c d : α) (h : b ≠ d) :
    l ++ [a, b] ≠ l ++ [c, d] := by
  intro he
  have h2 := List.append_cancel_left he
  injection h2 with _ h3
  injection h3 with h4 _
  exact h h4

theorem metadataPath_ne_docPath (root : Path) : metadataPath root ≠ docPath root :=
  append_pair_ne_right root _ _ _ _ (by decide)

@[simp] theorem mkdirAll_files (p : Path) (w : World) : (mkdirAll p w).files = w.files := rfl

@[simp] theorem mkdirAll_failWrites (p : Path) (w : World) :
    (mkdirAll p w).failWrites = w.failWrites := rfl

@[simp] theorem mkdirAll_trace (p : Path) (w : World) :
    (mkdirAll p w).trace = w.trace ++ [Ev.mkdirD p] := rfl

theorem pathPresent_mkdirAll (p q : Path) (w : World) (h : p ≠ q) :
    pathPresent p (mkdirAll q w) = pathPresent p w := by
  unfold pathPresent mkdirAll
  by_cases hq : q ∈ w.dirs <;> simp [hq, h]

theorem fsWrite_not_fail (p : Path) (c : Content) (w : World) (h : p ∉ w.failWrites) :
    fsWrite p c w =
      (Except.ok (), { w with files := setAssoc w.files p c,
                              trace := w.trace ++ [Ev.writeF p] }) := by
  simp [fsWrite, h]

theorem fsWrite_fail (p : Path) (c : Content) (w : World) (h : p ∈ w.failWrites) :
    fsWrite p c w =
      (Except.error Err.ioError, { w with trace := w.trace ++ [Ev.writeF p] }) := by
  simp [fsWrite, h]

@[simp] theorem fsWrite_snd_dirs (p : Path) (c : Content) (w : World) :
    ((fsWrite p c w).2).dirs = w.dirs := by
  unfold fsWrite; split <;> rfl

@[simp] theorem fsWrite_snd_failWrites (p : Path) (c : Content) (w : World) :
    ((fsWrite p c w).2).failWrites = w.failWrites := by
  unfold fsWrite; split <;> rfl

@[simp] theorem fsWrite_snd_trace (p : Path) (c : Content) (w : World) :
    ((fsWrite p c w).2).trace = w.trace ++ [Ev.writeF p] := by
  unfold fsWrite; split <;> rfl

@[simp] theorem fsReadToString_snd (p : Path) (w : World) :
    (fsReadToString p w).2 = { w with trace := w.trace ++ [Ev.readF p] } := by
  unfold fsReadToString; split <;> rfl

@[simp] theorem fsReadRaw_snd (p : Path) (w : World) :
    (fsReadRaw p w).2 = { w with trace := w.trace ++ [Ev.readF p] } := by
  unfold fsReadRaw; split <;> rfl

@[simp] theorem fsExistsCheck_snd (p : Path) (w : World) :
    (fsExistsCheck p w).2 = { w with trace := w.trace ++ [Ev.statF p] } := rfl

@[simp] theorem fsExistsCheck_fst (p : Path) (w : World) :
    (fsExistsCheck p w).1 = pathPresent p w := rfl

theorem fsReadToString_text (p : Path) (w : World) (s : String)
    (h : lookupAssoc w.files p = some (Content.text s)) :
    (fsReadToString p w).1 = Except.ok s := by
  simp [fsReadToString, h]

theorem fsReadRaw_found (p : Path) (w : World) (c : Content)
    (h : lookupAssoc w.files p = some c) : (fsReadRaw p w).1 = Except.ok c := by
  simp [fsReadRaw, h]

/-! ### Lemmas about the per-id write loop of `Graph.save` -/

theorem writeDirty_ok_fst (root : Path) (doc : Store) (ids : List String) (w : World)
    (h : w.failWrites = []) : (writeDirty root doc ids w).1 = Except.ok () := by
  induction ids generalizing w with
  | nil => rfl
  | cons id rest ih =>
    unfold writeDirty
    rw [fsWrite_not_fail _ _ _ (by simp [h])]
    exact ih _ (by simp [h])

theorem writeDirty_snd_dirs (root : Path) (doc : Store) (ids : List String) (w : World) :
    ((writeDirty root doc ids w).2).dirs = w.dirs := by
  induction ids generalizing w with
  | nil => rfl
  | cons id rest ih =>
    dsimp only [writeDirty]
    split <;> simp [ih]

theorem writeDirty_snd_failWrites (root : Path) (doc : Store) (ids : List String)
    (w : World) : ((writeDirty root doc ids w).2).failWrites = w.failWrites := by
  induction ids generalizing w with
  | nil => rfl
  | cons id rest ih =>
    dsimp only [writeDirty]
    split <;> simp [ih]

theorem writeDirty_ok_trace (root : Path) (doc : Store) (ids : List String) (w : World)
    (h : w.failWrites = []) :
    ((writeDirty root doc ids w).2).trace =
      w.trace ++ ids.map (fun id => Ev.writeF (joinId root id)) := by
  induction ids generalizing w with
  | nil => simp [writeDirty]
  | cons id rest ih =>
    unfold writeDirty
    rw [fsWrite_not_fail _ _ _ (by simp [h])]
    rw [ih _ (by simp [h])]
    simp

theorem writeDirty_lookup_preserved (root : Path) (doc : Store) (ids : List String)
    (w : World) (p : Path) (h : w.failWrites = [])
    (hp : ∀ id ∈ ids, joinId root id ≠ p) :
    lookupAssoc ((writeDirty root doc ids w).2).files p = lookupAssoc w.files p := by
  induction ids generalizing w with
  | nil => rfl
  | cons id rest ih =>
    unfold writeDirty
    rw [fsWrite_not_fail _ _ _ (by simp [h])]
    rw [ih _ (by simp [h]) (fun i hi => hp i (List.mem_cons_of_mem _ hi))]
    exact lookup_setAssoc_ne _ _ _ _ (fun he => hp id (List.mem_cons_self _ _) he.symm)

theorem writeDirty_lookup_written (root : Path) (doc : Store) (ids : List String)
    (w : World) (id : String) (h : w.failWrites = []) (hid : id ∈ ids)
    (hinj : ∀ id2 ∈ ids, joinId root id2 = joinId root id → id2 = id) :
    lookupAssoc ((writeDirty root doc ids w).2).files (joinId root id) =
      some (Content.text (Store.get doc id)) := by
  induction ids generalizing w with
  | nil => cases hid
  | cons id0 rest ih =>
    unfold writeDirty
    rw [fsWrite_not_fail _ _ _ (by simp [h])]
    by_cases hmem : id ∈ rest
    · exact ih _ (by simp [h]) hmem
        (fun i hi he => hinj i (List.mem_cons_of_mem _ hi) he)
    · have heq : id = id0 := by
        rcases List.mem_cons.1 hid with h1 | h1
        · exact h1
        · exact absurd h1 hmem
      subst heq
      rw [writeDirty_lookup_preserved _ _ _ _ _ (by simp [h])
        (fun i hi he => hmem ((hinj i (List.mem_cons_of_mem _ hi) he) ▸ hi))]
      exact lookup_setAssoc_self _ _ _

/-! ### Lemmas about `Graph.save` -/

theorem save_ok_of_no_fail (g : Graph) (w : World) (h : w.failWrites = []) :
    (Graph.save g w).1 = Except.ok () ∧ (Graph.save g w).2.1 = { g with dirty := [] } := by
  unfold Graph.save
  rw [fsWrite_not_fail _ _ _ (by simp [h])]
  dsimp only
  rw [fsWrite_not_fail _ _ _ (by simp [h])]
  dsimp only
  rw [writeDirty_ok_fst _ _ _ _ (by simp [h])]
  exact ⟨rfl, rfl⟩

theorem save_world_dirs (g : Graph) (w : World) :
    ((Graph.save g w).2.2).dirs = w.dirs := by
  unfold Graph.save
  dsimp only
  split
  · simp
  · split
    · simp
    · split <;> simp [writeDirty_snd_dirs]

theorem save_world_failWrites (g : Graph) (w : World) :
    ((Graph.save g w).2.2).failWrites = w.failWrites := by
  unfold Graph.save
  dsimp only
  split
  · simp
  · split
    · simp
    · split <;> simp [writeDirty_snd_failWrites]

theorem save_world_trace (g : Graph) (w : World) (h : w.failWrites = []) :
    ((Graph.save g w).2.2).trace =
      w.trace ++ [Ev.writeF (metadataPath g.path), Ev.writeF (docPath g.path)] ++
        g.dirty.map (fun id => Ev.writeF (joinId g.path id)) := by
  unfold Graph.save
  rw [fsWrite_not_fail _ _ _ (by simp [h])]
  dsimp only
  rw [fsWrite_not_fail _ _ _ (by simp [h])]
  dsimp only
  rw [writeDirty_ok_fst _ _ _ _ (by simp [h])]
  dsimp only
  rw [writeDirty_ok_trace _ _ _ _ (by simp [h])]
  simp

theorem save_lookup_preserved (g : Graph) (w : World) (p : Path) (h : w.failWrites = [])
    (hp1 : p ≠ metadataPath g.path) (hp2 : p ≠ docPath g.path)
    (hp3 : ∀ id ∈ g.dirty, joinId g.path id ≠ p) :
    lookupAssoc ((Graph.save g w).2.2).files p = lookupAssoc w.files p := by
  unfold Graph.save
  rw [fsWrite_not_fail _ _ _ (by simp [h])]
  dsimp only
  rw [fsWrite_not_fail _ _ _ (by simp [h])]
  dsimp only
  rw [writeDirty_ok_fst _ _ _ _ (by simp [h])]
  dsimp only
  rw [writeDirty_lookup_preserved _ _ _ _ _ (by simp [h]) hp3]
  dsimp only
  rw [lookup_setAssoc_ne _ _ _ _ hp2, lookup_setAssoc_ne _ _ _ _ hp1]

theorem save_lookup_meta (g : Graph) (w : World) (h : w.failWrites = [])
    (hmp : ∀ id ∈ g.dirty, joinId g.path id ≠ metadataPath g.path) :
    lookupAssoc ((Graph.save g w).2.2).files (metadataPath g.path) =
      some (Content.text g.metadata.toToml) := by
  unfold Graph.save
  rw [fsWrite_not_fail _ _ _ (by simp [h])]
  dsimp only
  rw [fsWrite_not_fail _ _ _ (by simp [h])]
  dsimp only
  rw [writeDirty_ok_fst _ _ _ _ (by simp [h])]
  dsimp only
  rw [writeDirty_lookup_preserved _ _ _ _ _ (by simp [h]) hmp]
  dsimp only
  rw [lookup_setAssoc_ne _ _ _ _ (metadataPath_ne_docPath g.path)]
  exact lookup_setAssoc_self _ _ _

theorem save_lookup_doc (g : Graph) (w : World) (h : w.failWrites = [])
    (hdp : ∀ id ∈ g.dirty, joinId g.path id ≠ docPath g.path) :
    lookupAssoc ((Graph.save g w).2.2).files (docPath g.path) =
      some (Content.snap g.document) := by
  unfold Graph.save
  rw [fsWrite_not_fail _ _ _ (by simp [h])]
  dsimp only
  rw [fsWrite_not_fail _ _ _ (by simp [h])]
  dsimp only
  rw [writeDirty_ok_fst _ _ _ _ (by simp [h])]
  dsimp only
  rw [writeDirty_lookup_preserved _ _ _ _ _ (by simp [h]) hdp]
  exact lookup_setAssoc_self _ _ _

theorem save_lookup_dirty (g : Graph) (w : World) (id : String) (h : w.failWrites = [])
    (hid : id ∈ g.dirty)
    (hinj : ∀ id2 ∈ g.dirty, joinId g.path id2 = joinId g.path id → id2 = id) :
    lookupAssoc ((Graph.save g w).2.2).files (joinId g.path id) =
      some (Content.text (Store.get g.document id)) := by
  unfold Graph.save
  rw [fsWrite_not_fail _ _ _ (by simp [h])]
  dsimp only
  rw [fsWrite_not_fail _ _ _ (by simp [h])]
  dsimp only
  rw [writeDirty_ok_fst _ _ _ _ (by simp [h])]
  dsimp only
  exact writeDirty_lookup_written _ _ _ _ _ (by simp [h]) hid hinj

theorem save_dirty_of_ok (g : Graph) (w : World)
    (h : (Graph.save g w).1 = Except.ok ()) : ((Graph.save g w).2.1).dirty = [] := by
  dsimp only [Graph.save] at *
  split at h
  · simp_all
  · split at h
    · simp_all
    · split at h
      · simp_all
      · simp_all

theorem save_graph_of_error (g : Graph) (w : World) (e : Err)
    (h : (Graph.save g w).1 = Except.error e) : (Graph.save g w).2.1 = g := by
  dsimp only [Graph.save] at *
  split at h
  · rfl
  · split at h
    · rfl
    · split at h
      · rfl
      · simp_all

theorem add_dirty_of_ok (today content : String) (g : Graph) (w : World)
    (h : (Graph.add today content g w).1 = Except.ok ()) :
    ((Graph.add today content g w).2.1).dirty = [] := by
  dsimp only [Graph.add] at *
  split at h
  · simp at h
  · exact save_dirty_of_ok _ _ h

/-! ### Lemmas about `Graph.add` -/

theorem string_empty_append (s : String) : "" ++ s = s := by
  cases s with
  | mk d => rfl

theorem Store.get_set_self (st : Store) (id : String) (v : String) :
    Store.get (Store.set st id v) id = v := by
  unfold Store.get Store.set
  rw [lookup_setAssoc_self]

theorem daily_eq_joinId (root : Path) (today : String)
    (hsplit : splitOnChar '/' (JOURNAL_DIR ++ "/" ++ today ++ ".md") =
      [JOURNAL_DIR, today ++ ".md"]) :
    journalDir root ++ [today ++ ".md"] =
      joinId root (JOURNAL_DIR ++ "/" ++ today ++ ".md") := by
  unfold joinId journalDir
  rw [hsplit]
  simp

theorem daily_ne_journalDir (root : Path) (today : String) :
    journalDir root ++ [today ++ ".md"] ≠ journalDir root :=
  append_singleton_ne _ _

theorem add_run_existing (today content s : String) (g : Graph) (w : World)
    (hd : g.dirty = []) (hfail : w.failWrites = [])
    (hsplit : splitOnChar '/' (JOURNAL_DIR ++ "/" ++ today ++ ".md") =
      [JOURNAL_DIR, today ++ ".md"])
    (hfile : lookupAssoc w.files (journalDir g.path ++ [today ++ ".md"]) =
      some (Content.text s)) :
    (Graph.add today content g w).1 = Except.ok () ∧
    lookupAssoc ((Graph.add today content g w).2.2).files
        (journalDir g.path ++ [today ++ ".md"]) =
      some (Content.text (s ++ ("\n- " ++ content))) := by
  have hex : pathPresent (journalDir g.path ++ [today ++ ".md"])
      (mkdirAll (journalDir g.path) w) = true := by
    unfold pathPresent
    simp [hfile]
  dsimp only [Graph.add]
  simp only [fsExistsCheck_fst, hex, if_true]
  rw [fsReadToString_text _ _ s (by simpa using hfile)]
  dsimp only
  have hdoc : Store.push (Store.update g.document
      (JOURNAL_DIR ++ "/" ++ today ++ ".md") s)
      (JOURNAL_DIR ++ "/" ++ today ++ ".md") ("\n- " ++ content) =
      Store.set (Store.update g.document (JOURNAL_DIR ++ "/" ++ today ++ ".md") s)
        (JOURNAL_DIR ++ "/" ++ today ++ ".md") (s ++ ("\n- " ++ content)) := by
    unfold Store.push Store.update
    rw [Store.get_set_self]
  rw [hdoc]
  constructor
  · exact (save_ok_of_no_fail _ _ (by simp [hfail])).1
  · rw [daily_eq_joinId g.path today hsplit]
    conv_rhs => rw [show (s ++ ("\n- " ++ content)) =
      Store.get (Store.set (Store.update g.document
          (JOURNAL_DIR ++ "/" ++ today ++ ".md") s)
          (JOURNAL_DIR ++ "/" ++ today ++ ".md") (s ++ ("\n- " ++ content)))
        (JOURNAL_DIR ++ "/" ++ today ++ ".md") from (Store.get_set_self _ _ _).symm]
    exact save_lookup_dirty _ _ _ (by simp [hfail])
      (by show (JOURNAL_DIR ++ "/" ++ today ++ ".md") ∈
            insertId g.dirty (JOURNAL_DIR ++ "/" ++ today ++ ".md")
          rw [hd]; simp [insertId])
      (by intro id2 h2 _
          have h3 : id2 ∈ insertId g.dirty (JOURNAL_DIR ++ "/" ++ today ++ ".md") := h2
          rw [hd] at h3; simpa [insertId] using h3)


theorem add_run_absent (today content : String) (g : Graph) (w : World)
    (hd : g.dirty = []) (hfail : w.failWrites = [])
    (hsplit : splitOnChar '/' (JOURNAL_DIR ++ "/" ++ today ++ ".md") =
      [JOURNAL_DIR, today ++ ".md"])
    (habsent : pathPresent (journalDir g.path ++ [today ++ ".md"]) w = false)
    (hempty : Store.get g.document (JOURNAL_DIR ++ "/" ++ today ++ ".md") = "") :
    (Graph.add today content g w).1 = Except.ok () ∧
    (Graph.add today content g w).2.1 =
      { g with
        document := (Store.set g.document
          (JOURNAL_DIR ++ "/" ++ today ++ ".md") ("\n- " ++ content)),
        dirty := [] } ∧
    lookupAssoc ((Graph.add today content g w).2.2).files
        (journalDir g.path ++ [today ++ ".md"]) =
      some (Content.text ("\n- " ++ content)) ∧
    ((Graph.add today content g w).2.2).failWrites = [] := by
  have hex : pathPresent (journalDir g.path ++ [today ++ ".md"])
      (mkdirAll (journalDir g.path) w) = false := by
    rw [pathPresent_mkdirAll _ _ _ (daily_ne_journalDir g.path today)]
    exact habsent
  dsimp only [Graph.add]
  simp only [fsExistsCheck_fst, hex, Bool.false_eq_true, if_false]
  have hdoc : Store.push g.document (JOURNAL_DIR ++ "/" ++ today ++ ".md")
      ("\n- " ++ content) =
      Store.set g.document (JOURNAL_DIR ++ "/" ++ today ++ ".md")
        ("\n- " ++ content) := by
    unfold Store.push
    rw [hempty, string_empty_append]
  rw [hdoc]
  refine ⟨(save_ok_of_no_fail _ _ (by simp [hfail])).1, ?_, ?_, ?_⟩
  · rw [(save_ok_of_no_fail _ _ (by simp [hfail])).2]
  · rw [daily_eq_joinId g.path today hsplit]
    conv_rhs => rw [show (("\n- " ++ content) : String) =
      Store.get (Store.set g.document
          (JOURNAL_DIR ++ "/" ++ today ++ ".md") ("\n- " ++ content))
        (JOURNAL_DIR ++ "/" ++ today ++ ".md") from (Store.get_set_self _ _ _).symm]
    exact save_lookup_dirty _ _ _ (by simp [hfail])
      (by show (JOURNAL_DIR ++ "/" ++ today ++ ".md") ∈
            insertId g.dirty (JOURNAL_DIR ++ "/" ++ today ++ ".md")
          rw [hd]; simp [insertId])
      (by intro id2 h2 _
          have h3 : id2 ∈ insertId g.dirty (JOURNAL_DIR ++ "/" ++ today ++ ".md") := h2
          rw [hd] at h3; simpa [insertId] using h3)
  · rw [save_world_failWrites]
    simp [hfail]

/-- C2: when a `.flow` marker is already present at the target path and the
configuration file is readable, the init command fails with AlreadyExists and
leaves every file and directory unchanged. -/
theorem initCommand_refuses_existing_marker (path : Path) (name : Option String)
    (w : World) (c : Config)
    (hconf : lookupAssoc w.files configPath = some (Content.conf c))
    (hmark : pathPresent (path ++ [".flow"]) w = true) :
    (initCommandRun path name w).1 = Except.error Err.alreadyExists ∧
    ((initCommandRun path name w).2).files = w.files ∧
    ((initCommandRun path name w).2).dirs = w.dirs := by
  dsimp only [initCommandRun, Config.load]
  rw [hconf]
  dsimp only
  have hm2 : Graph.existsAt path
      { w with trace := w.trace ++ [Ev.readF configPath] } = true := hmark
  simp only [hm2, if_true]
  refine ⟨?_, ?_, ?_⟩ <;> trivial

theorem initCommand_refuses_existing_marker_witness :
    (lookupAssoc exWorldMarked.files configPath =
      some (Content.conf Config.defaultConfig)) ∧
    pathPresent (exRoot ++ [".flow"]) exWorldMarked = true ∧
    (initCommandRun exRoot none exWorldMarked).1 = Except.error Err.alreadyExists ∧
    ((initCommandRun exRoot none exWorldMarked).2).files = exWorldMarked.files := by
  have h := initCommand_refuses_existing_marker exRoot none exWorldMarked
    Config.defaultConfig (by decide) (by decide)
  exact ⟨by decide, by decide, h.1, h.2.1⟩

/-- C8: loading a path whose metadata file is readable and parsable but whose
snapshot file does not exist succeeds with an empty store and an empty dirty
set. -/
theorem load_succeeds_without_snapshot (path : Path) (w : World) (s : String)
    (m : Metadata)
    (hmeta : lookupAssoc w.files (metadataPath path) = some (Content.text s))
    (hparse : tomlToMetadata s = Except.ok m)
    (hnofile : lookupAssoc w.files (docPath path) = none)
    (hnodir : docPath path ∉ w.dirs) :
    (Graph.load path w).1 =
      Except.ok { path := path, metadata := m, document := [], dirty := [] } := by
  dsimp only [Graph.load]
  rw [fsReadToString_text _ _ s hmeta]
  dsimp only
  rw [hparse]
  dsimp only
  have hex : pathPresent (docPath path)
      ((fsReadToString (metadataPath path) w).2) = false := by
    unfold pathPresent
    simp [hnofile, hnodir]
  simp only [fsExistsCheck_fst, hex, Bool.false_eq_true, if_false]

theorem load_succeeds_without_snapshot_witness :
    (Graph.load exRoot exWorldMetaOnly).1 =
      Except.ok { path := exRoot, metadata := exMeta, document := [], dirty := [] } :=
  load_succeeds_without_snapshot exRoot exWorldMetaOnly exMeta.toToml exMeta
    (by decide) (by decide) (by decide) (by decide)

/-- C10: `Graph.load` performs no filesystem writes: whether it succeeds or
fails, the files and directories are unchanged and the only events it adds to
the trace are reads of the metadata file and an existence check and read of
the snapshot file. -/
theorem load_performs_no_writes (path : Path) (w : World) :
    ((Graph.load path w).2).files = w.files ∧
    ((Graph.load path w).2).dirs = w.dirs ∧
    ∃ evs, ((Graph.load path w).2).trace = w.trace ++ evs ∧
      ∀ e ∈ evs, e = Ev.readF (metadataPath path) ∨ e = Ev.statF (docPath path) ∨
        e = Ev.readF (docPath path) := by
  dsimp only [Graph.load]
  split
  · exact ⟨by simp, by simp, [Ev.readF (metadataPath path)], by simp, by simp⟩
  · split
    · exact ⟨by simp, by simp, [Ev.readF (metadataPath path)], by simp, by simp⟩
    · split
      · split
        · exact ⟨by simp, by simp,
            [Ev.readF (metadataPath path), Ev.statF (docPath path),
             Ev.readF (docPath path)], by simp, by simp⟩
        · split
          · exact ⟨by simp, by simp,
              [Ev.readF (metadataPath path), Ev.statF (docPath path),
               Ev.readF (docPath path)], by simp, by simp⟩
          · exact ⟨by simp, by simp,
              [Ev.readF (metadataPath path), Ev.statF (docPath path),
               Ev.readF (docPath path)], by simp, by simp⟩
      · exact ⟨by simp, by simp,
          [Ev.readF (metadataPath path), Ev.statF (docPath path)], by simp, by simp⟩

/-- C5: `Graph.save` clears the dirty set only on full success; on any write
failure it returns the error and leaves the session, in particular its dirty
set, exactly as it was before the call. -/
theorem save_clears_dirty_only_on_success (g : Graph) (w : World) :
    ((Graph.save g w).1 = Except.ok () → ((Graph.save g w).2.1).dirty = []) ∧
    (∀ e, (Graph.save g w).1 = Except.error e → (Graph.save g w).2.1 = g) :=
  ⟨save_dirty_of_ok g w, fun e he => save_graph_of_error g w e he⟩

theorem save_clears_dirty_only_on_success_witness :
    (Graph.save exGraph exWorldFail).1 = Except.error Err.ioError ∧
    (Graph.save exGraph exWorldFail).2.1 = exGraph := by
  refine ⟨by decide, ?_⟩
  exact (save_clears_dirty_only_on_success exGraph exWorldFail).2 Err.ioError (by decide)

/-- C9: a successful `Graph.add` returns with an empty dirty set, because it
marks the day's id dirty and then invokes `Graph.save` itself before
returning. -/
theorem add_success_leaves_dirty_empty (today content : String) (g : Graph)
    (w : World) (h : (Graph.add today content g w).1 = Except.ok ()) :
    ((Graph.add today content g w).2.1).dirty = [] :=
  add_dirty_of_ok today content g w h

theorem add_success_leaves_dirty_empty_witness :
    (Graph.add "2025-01-02" "hi" exGraph exWorld0).1 = Except.ok () ∧
    ((Graph.add "2025-01-02" "hi" exGraph exWorld0).2.1).dirty = [] :=
  ⟨by decide, add_success_leaves_dirty_empty "2025-01-02" "hi" exGraph exWorld0 (by decide)⟩

/-- C1 counterexample: on an empty journal entry (no file on disk, empty
container), `Graph.add` produces a file whose content is `"\n- hi"`, with a
leading newline, not `"- hi"` as the claim states. -/
theorem add_first_line_counterexample :
    (Graph.add "2025-01-02" "hi" exGraph exWorld0).1 = Except.ok () ∧
    lookupAssoc ((Graph.add "2025-01-02" "hi" exGraph exWorld0).2.2).files
        (journalDir exRoot ++ ["2025-01-02.md"]) =
      some (Content.text "\n- hi") ∧
    ("\n- hi" : String) ≠ "- hi" := by
  refine ⟨by decide, by decide, by decide⟩

/-- C1 amended: `Graph.add` in graph.rs always prefixes the appended line
with a newline: the first add on an empty entry materializes `"\n- c1"`, and
a second add materializes `"\n- c1" ++ "\n- c2"`. -/
theorem add_always_prefixes_newline (today c1 c2 : String) (g : Graph) (w : World)
    (hd : g.dirty = []) (hfail : w.failWrites = [])
    (hsplit : splitOnChar '/' (JOURNAL_DIR ++ "/" ++ today ++ ".md") =
      [JOURNAL_DIR, today ++ ".md"])
    (habsent : pathPresent (journalDir g.path ++ [today ++ ".md"]) w = false)
    (hempty : Store.get g.document (JOURNAL_DIR ++ "/" ++ today ++ ".md") = "") :
    (Graph.add today c1 g w).1 = Except.ok () ∧
    lookupAssoc ((Graph.add today c1 g w).2.2).files
        (journalDir g.path ++ [today ++ ".md"]) =
      some (Content.text ("\n- " ++ c1)) ∧
    (Graph.add today c2 ((Graph.add today c1 g w).2.1)
      ((Graph.add today c1 g w).2.2)).1 = Except.ok () ∧
    lookupAssoc ((Graph.add today c2 ((Graph.add today c1 g w).2.1)
        ((Graph.add today c1 g w).2.2)).2.2).files
        (journalDir g.path ++ [today ++ ".md"]) =
      some (Content.text (("\n- " ++ c1) ++ ("\n- " ++ c2))) := by
  obtain ⟨h1, h2, h3, h4⟩ := add_run_absent today c1 g w hd hfail hsplit habsent hempty
  have hp : ((Graph.add today c1 g w).2.1).path = g.path := by rw [h2]
  have h5 := add_run_existing today c2 ("\n- " ++ c1)
    ((Graph.add today c1 g w).2.1) ((Graph.add today c1 g w).2.2)
    (by rw [h2]) h4 hsplit (by rw [hp]; exact h3)
  rw [hp] at h5
  exact ⟨h1, h3, h5.1, h5.2⟩

theorem add_always_prefixes_newline_witness :
    (Graph.add "2025-01-02" "a" exGraph exWorld0).1 = Except.ok () ∧
    lookupAssoc ((Graph.add "2025-01-02" "a" exGraph exWorld0).2.2).files
        (journalDir exRoot ++ ["2025-01-02.md"]) =
      some (Content.text "\n- a") ∧
    (Graph.add "2025-01-02" "b" ((Graph.add "2025-01-02" "a" exGraph exWorld0).2.1)
      ((Graph.add "2025-01-02" "a" exGraph exWorld0).2.2)).1 = Except.ok () ∧
    lookupAssoc ((Graph.add "2025-01-02" "b"
        ((Graph.add "2025-01-02" "a" exGraph exWorld0).2.1)
        ((Graph.add "2025-01-02" "a" exGraph exWorld0).2.2)).2.2).files
        (journalDir exRoot ++ ["2025-01-02.md"]) =
      some (Content.text "\n- a\n- b") := by
  have h := add_always_prefixes_newline "2025-01-02" "a" "b" exGraph exWorld0
    (by decide) (by decide) (by decide) (by decide) (by decide)
  exact ⟨h.1, h.2.1, h.2.2.1, h.2.2.2⟩

/-- C3: when today's journal file already exists on disk (for example with a
manually appended line), `Graph.add` first folds the file content into the
replicated value via `update` and then appends, so the materialized file is
the old file content followed by the new `"\n- x"` line — neither is lost. -/
theorem add_merges_external_edits (today content s : String) (g : Graph) (w : World)
    (hd : g.dirty = []) (hfail : w.failWrites = [])
    (hsplit : splitOnChar '/' (JOURNAL_DIR ++ "/" ++ today ++ ".md") =
      [JOURNAL_DIR, today ++ ".md"])
    (hfile : lookupAssoc w.files (journalDir g.path ++ [today ++ ".md"]) =
      some (Content.text s)) :
    (Graph.add today content g w).1 = Except.ok () ∧
    lookupAssoc ((Graph.add today content g w).2.2).files
        (journalDir g.path ++ [today ++ ".md"]) =
      some (Content.text (s ++ ("\n- " ++ content))) :=
  add_run_existing today content s g w hd hfail hsplit hfile

theorem add_merges_external_edits_witness :
    (Graph.add "2025-01-02" "x" exGraph exWorldManual).1 = Except.ok () ∧
    lookupAssoc ((Graph.add "2025-01-02" "x" exGraph exWorldManual).2.2).files
        (journalDir exRoot ++ ["2025-01-02.md"]) =
      some (Content.text "manual\n- x") := by
  have h := add_merges_external_edits "2025-01-02" "x" "manual" exGraph exWorldManual
    (by decide) (by decide) (by decide) (by decide)
  exact ⟨h.1, h.2⟩

/-- C4: after a successful `Graph.save`, the materialized file at `root/id`
for every id in the dirty set equals that id's rendered string exactly. -/
theorem save_materializes_renderings (g : Graph) (w : World)
    (hfail : w.failWrites = [])
    (hinj : ∀ id1 ∈ g.dirty, ∀ id2 ∈ g.dirty,
      joinId g.path id1 = joinId g.path id2 → id1 = id2) :
    (Graph.save g w).1 = Except.ok () ∧
    ∀ id ∈ g.dirty,
      lookupAssoc ((Graph.save g w).2.2).files (joinId g.path id) =
        some (Content.text (Store.get g.document id)) :=
  ⟨(save_ok_of_no_fail g w hfail).1,
   fun id hid => save_lookup_dirty g w id hfail hid
     (fun id2 h2 he => hinj id2 h2 id hid he)⟩

theorem save_materializes_renderings_witness :
    (Graph.save exGraphDirty exWorld0).1 = Except.ok () ∧
    lookupAssoc ((Graph.save exGraphDirty exWorld0).2.2).files
        (joinId exRoot "journal/2025-01-02.md") =
      some (Content.text "hello") := by
  have h := save_materializes_renderings exGraphDirty exWorld0 (by decide) (by decide)
  exact ⟨h.1, h.2 "journal/2025-01-02.md" (by decide)⟩

/-- C6: `Graph.save` followed by `Graph.load` on the same path yields a
session whose rendering for every previously dirty id equals that id's
pre-save rendering: the snapshot export/import cycle is lossless for
content. -/
theorem save_then_load_preserves_renderings (g : Graph) (w : World)
    (hfail : w.failWrites = [])
    (hm : tomlToMetadata g.metadata.toToml = Except.ok g.metadata)
    (hid : ∀ id ∈ g.dirty, joinId g.path id ≠ metadataPath g.path ∧
      joinId g.path id ≠ docPath g.path) :
    (Graph.save g w).1 = Except.ok () ∧
    ∃ l, (Graph.load g.path ((Graph.save g w).2.2)).1 = Except.ok l ∧
      ∀ id ∈ g.dirty, Store.get l.document id = Store.get g.document id := by
  refine ⟨(save_ok_of_no_fail g w hfail).1, ?_⟩
  have hmeta := save_lookup_meta g w hfail (fun id h => (hid id h).1)
  have hdoc := save_lookup_doc g w hfail (fun id h => (hid id h).2)
  refine ⟨{ path := g.path, metadata := g.metadata, document := g.document,
            dirty := [] }, ?_, ?_⟩
  · dsimp only [Graph.load]
    rw [fsReadToString_text _ _ _ hmeta]
    dsimp only
    rw [hm]
    dsimp only
    have hex : pathPresent (docPath g.path)
        ((fsReadToString (metadataPath g.path) ((Graph.save g w).2.2)).2) = true := by
      unfold pathPresent
      simp [hdoc]
    simp only [fsExistsCheck_fst, hex, if_true]
    rw [fsReadRaw_found _ _ _ (by simpa using hdoc)]
    dsimp only
    rfl
  · intro id _
    rfl

theorem save_then_load_preserves_renderings_witness :
    (Graph.save exGraphDirty exWorld0).1 = Except.ok () ∧
    ∃ l, (Graph.load exRoot ((Graph.save exGraphDirty exWorld0).2.2)).1 =
        Except.ok l ∧
      Store.get l.document "journal/2025-01-02.md" = "hello" := by
  have h := save_then_load_preserves_renderings exGraphDirty exWorld0
    (by decide) (by decide) (by decide)
  obtain ⟨h1, l, hl, hr⟩ := h
  exact ⟨h1, l, hl, (hr "journal/2025-01-02.md" (by decide)).trans (by decide)⟩

/-- C7 counterexample: `Graph.add` does not leave the metadata and snapshot
files untouched: a successful add changes the snapshot file's content and
performs a write to the metadata file. -/
theorem add_touches_snapshot_counterexample :
    (Graph.add "2025-01-02" "x" exGraph exWorldInit).1 = Except.ok () ∧
    lookupAssoc ((Graph.add "2025-01-02" "x" exGraph exWorldInit).2.2).files
        (docPath exRoot) ≠
      lookupAssoc exWorldInit.files (docPath exRoot) ∧
    Ev.writeF (metadataPath exRoot) ∈
      ((Graph.add "2025-01-02" "x" exGraph exWorldInit).2.2).trace := by
  refine ⟨by decide, by decide, by decide⟩

/-- C7 amended: the reconciliation phase of `Graph.add` touches only the
day's journal file (one directory creation, one existence check, at most one
read), but `Graph.add` then calls `Graph.save`, so on success its writes are
exactly the metadata file, the snapshot file and the day's journal file. -/
theorem add_filesystem_footprint (today content : String) (g : Graph) (w : World)
    (hd : g.dirty = []) (hfail : w.failWrites = [])
    (hok : (Graph.add today content g w).1 = Except.ok ()) :
    ((Graph.add today content g w).2.2).trace =
      w.trace ++ [Ev.mkdirD (journalDir g.path),
        Ev.statF (journalDir g.path ++ [today ++ ".md"])] ++
      (if pathPresent (journalDir g.path ++ [today ++ ".md"]) w = true
        then [Ev.readF (journalDir g.path ++ [today ++ ".md"])] else []) ++
      [Ev.writeF (metadataPath g.path), Ev.writeF (docPath g.path),
        Ev.writeF (joinId g.path (JOURNAL_DIR ++ "/" ++ today ++ ".md"))] := by
  have hpp : pathPresent (journalDir g.path ++ [today ++ ".md"])
        (mkdirAll (journalDir g.path) w) =
      pathPresent (journalDir g.path ++ [today ++ ".md"]) w :=
    pathPresent_mkdirAll _ _ _ (daily_ne_journalDir g.path today)
  have hins : insertId g.dirty (JOURNAL_DIR ++ "/" ++ today ++ ".md") =
      [JOURNAL_DIR ++ "/" ++ today ++ ".md"] := by
    rw [hd]; simp [insertId]
  dsimp only [Graph.add] at hok ⊢
  simp only [fsExistsCheck_fst, hpp] at hok ⊢
  by_cases hex : pathPresent (journalDir g.path ++ [today ++ ".md"]) w = true
  · simp only [hex, if_true] at hok ⊢
    rcases hr : (fsReadToString (journalDir g.path ++ [today ++ ".md"])
        (fsExistsCheck (journalDir g.path ++ [today ++ ".md"])
          (mkdirAll (journalDir g.path) w)).2).1 with e | s
    · rw [hr] at hok
      simp at hok
    · rw [hr] at hok
      dsimp only at hok ⊢
      rw [save_world_trace _ _ (by simp [hfail])]
      rw [hins]
      simp [List.append_assoc]
  · have hex2 : pathPresent (journalDir g.path ++ [today ++ ".md"]) w = false := by
      simpa using hex
    simp only [hex2, Bool.false_eq_true, if_false] at hok ⊢
    rw [save_world_trace _ _ (by simp [hfail])]
    rw [hins]
    simp [List.append_assoc]

theorem add_filesystem_footprint_witness :
    ((Graph.add "2025-01-02" "x" exGraph exWorldInit).2.2).trace =
      exWorldInit.trace ++ [Ev.mkdirD (journalDir exRoot),
        Ev.statF (journalDir exRoot ++ ["2025-01-02.md"])] ++
      (if pathPresent (journalDir exRoot ++ ["2025-01-02.md"]) exWorldInit = true
        then [Ev.readF (journalDir exRoot ++ ["2025-01-02.md"])] else []) ++
      [Ev.writeF (metadataPath exRoot), Ev.writeF (docPath exRoot),
        Ev.writeF (joinId exRoot (JOURNAL_DIR ++ "/" ++ "2025-01-02" ++ ".md"))] :=
  add_filesystem_footprint "2025-01-02" "x" exGraph exWorldInit
    (by decide) (by decide) (by decide)

end Flow
